import Mathlib

/-!
Verification of the productivity-agent-system task store and helpers.

This file shallow-embeds the JSON-file-backed task store of
`tools/file_processor.py`, the Eisenhower prioritisation tool of
`agents/task_manager.py`, and the date-calculator conflict check, and
proves the spec claims about them.  Timestamps are modelled as integers
supplied by the caller (the injected clock); the strftime component of
generated task identifiers is modelled as a caller-supplied string, and
ISO date-time parsing (`datetime.fromisoformat`) as a caller-supplied
partial function from strings to integer times.
-/

namespace ProdAgent

/-- A task record, with the fields _save_task writes. -/
structure Task where
  id : String
  title : String
  description : String
  priority : String
  status : String
  deadline : String
  estimated_duration : Int
  tags : List String
  created_at : Int
  updated_at : Int
deriving DecidableEq

/-- The persisted JSON document data/tasks.json: tasks plus last_updated. -/
structure Store where
  tasks : List Task
  last_updated : Int
deriving DecidableEq

/-- State of the backing file: readable, absent, or unparsable JSON. -/
inductive FileState where
  | present (s : Store)
  | missing
  | corrupt
deriving DecidableEq

/-- Request parameters (one JSON object); keys absent from the request
are none. -/
structure Params where
  action : Option String
  task_id : Option String
  title : Option String
  description : Option String
  priority : Option String
  status : Option String
  deadline : Option String
  estimated_duration : Option Int
  tags : Option (List String)
  format : Option String
deriving DecidableEq

/-- A request carrying no keys at all. -/
def noParams : Params :=
  ⟨none, none, none, none, none, none, none, none, none, none⟩

/-- The structured JSON responses the tool can serialize. -/
inductive Response where
  | error (msg : String)
  | loadOk (tasks : List Task) (count : Nat) (last_updated : Option Int)
  | saveOk (task : Task)
  | updateOk (task : Task)
  | deleteOk (remaining : Nat)
  | reportEmpty
  | reportOk (total : Nat) (by_status by_priority : List (String × Nat))
      (overdue : Nat) (completion_rate : ℚ)
  | exportCsv (data : String) (count : Nat)
  | exportJson (data : List Task) (count : Nat)
deriving DecidableEq

/-- Python truthiness of an optional string value: keep it only when it
is present and non-empty. -/
def truthy : Option String → Option String
  | some s => if s = "" then none else some s
  | none => none

/-- FileProcessorTool._load_tasks: read, filter by status then by
priority (each only when the supplied value is truthy); a missing file
yields an empty list, an unreadable one an error. -/
def loadTasks (st : FileState) (p : Params) : Response :=
  match st with
  | .missing => .loadOk [] 0 none
  | .corrupt => .error "Expecting value"
  | .present s =>
    let t1 := match truthy p.status with
      | some sf => s.tasks.filter (fun t => t.status == sf)
      | none => s.tasks
    let t2 := match truthy p.priority with
      | some pf => t1.filter (fun t => t.priority == pf)
      | none => t1
    .loadOk t2 t2.length (some s.last_updated)

/-- The identifier _save_task generates: task_{count+1}_{timestamp}. -/
def mkTaskId (n : Nat) (ts : String) : String :=
  "task_" ++ toString n ++ "_" ++ ts

/-- The record _save_task builds from the request, with its defaults. -/
def freshTask (p : Params) (n : Nat) (ts : String) (now : Int) : Task where
  id := mkTaskId n ts
  title := p.title.getD "Untitled Task"
  description := p.description.getD ""
  priority := p.priority.getD "medium"
  status := p.status.getD "pending"
  deadline := p.deadline.getD ""
  estimated_duration := p.estimated_duration.getD 60
  tags := p.tags.getD []
  created_at := now
  updated_at := now

/-- FileProcessorTool._save_task: a read failure (missing or corrupt
file) is swallowed by the bare except and replaced by an empty
collection; the new record is appended and the document rewritten. -/
def saveTask (st : FileState) (p : Params) (ts : String) (now : Int) :
    Response × FileState :=
  let data := match st with
    | .present s => s
    | _ => { tasks := [], last_updated := 0 }
  let newTask := freshTask p (data.tasks.length + 1) ts now
  (.saveOk newTask,
   .present { tasks := data.tasks ++ [newTask], last_updated := now })

/-- The field overwrites performed inside _update_task's loop body:
exactly title, description, priority, status, deadline and
estimated_duration, each only when the key is in the request; tags is
never touched; updated_at is stamped with the clock. -/
def applyUpdate (p : Params) (now : Int) (t : Task) : Task :=
  { t with
    title := p.title.getD t.title
    description := p.description.getD t.description
    priority := p.priority.getD t.priority
    status := p.status.getD t.status
    deadline := p.deadline.getD t.deadline
    estimated_duration := p.estimated_duration.getD t.estimated_duration
    updated_at := now }

/-- The for-loop of _update_task: rewrite the first record whose id
matches, returning the updated record and the rewritten list. -/
def updateFirst (p : Params) (now : Int) (tid : String) :
    List Task → Option (Task × List Task)
  | [] => none
  | t :: rest =>
    if t.id = tid then
      some (applyUpdate p now t, applyUpdate p now t :: rest)
    else
      match updateFirst p now tid rest with
      | some (u, rest2) => some (u, t :: rest2)
      | none => none

/-- FileProcessorTool._update_task: a falsy task_id is rejected first;
then the first matching record is rewritten and the document saved, or a
not-found error returned with the file untouched. -/
def updateTask (st : FileState) (p : Params) (now : Int) :
    Response × FileState :=
  match truthy p.task_id with
  | none => (.error "task_id is required", st)
  | some tid =>
    match st with
    | .present s =>
      match updateFirst p now tid s.tasks with
      | some (u, tasks2) =>
        (.updateOk u, .present { tasks := tasks2, last_updated := now })
      | none => (.error ("Task with id " ++ tid ++ " not found"), st)
    | _ => (.error "No tasks file found", st)

/-- FileProcessorTool._delete_task: a falsy task_id is rejected first;
otherwise every record with the id is filtered out, and an unchanged
length is reported as not found. -/
def deleteTask (st : FileState) (p : Params) (now : Int) :
    Response × FileState :=
  match truthy p.task_id with
  | none => (.error "task_id is required", st)
  | some tid =>
    match st with
    | .present s =>
      let remaining := s.tasks.filter (fun t => t.id != tid)
      if remaining.length = s.tasks.length then
        (.error ("Task with id " ++ tid ++ " not found"), st)
      else
        (.deleteOk remaining.length,
         .present { tasks := remaining, last_updated := now })
    | _ => (.error "No tasks file found", st)

/-- Increment a key of an insertion-ordered counting dict, as the Python
dict updates by_status[s] = by_status.get(s, 0) + 1 do. -/
def bump : List (String × Nat) → String → List (String × Nat)
  | [], k => [(k, 1)]
  | (k2, v) :: rest, k =>
    if k2 = k then (k2, v + 1) :: rest else (k2, v) :: bump rest k

/-- Count looked up in a dict, 0 when the key is absent. -/
def lookupD (m : List (String × Nat)) (k : String) : Nat :=
  (m.lookup k).getD 0

/-- Floor of a rational, computed by flooring integer division. -/
def ratFloor (x : ℚ) : ℤ := Int.fdiv x.num x.den

/-- Round to the nearest integer, ties to even, as Python round does on
exactly representable values. -/
def roundHalfEven (y : ℚ) : ℤ :=
  let fl := ratFloor y
  let frac := y - (fl : ℚ)
  if frac < 1 / 2 then fl
  else if 1 / 2 < frac then fl + 1
  else if fl % 2 = 0 then fl else fl + 1

/-- Round to k decimal digits, as Python round(x, k). -/
def roundTo (k : Nat) (x : ℚ) : ℚ :=
  (roundHalfEven (x * (10 : ℚ) ^ k) : ℚ) / (10 : ℚ) ^ k

/-- One loop step of _generate_report's overdue counter: empty deadlines
are skipped, unparsable deadlines are swallowed by the except clause. -/
def overdueStep (parse : String → Option Int) (now : Int) (t : Task) : Nat :=
  if t.deadline = "" then 0
  else match parse t.deadline with
    | some d => if d < now ∧ t.status ≠ "completed" then 1 else 0
    | none => 0

/-- FileProcessorTool._generate_report: one pass over the records builds
the status histogram, the priority histogram and the overdue count; an
empty collection short-circuits to the degenerate report. -/
def generateReport (parse : String → Option Int) (st : FileState)
    (now : Int) : Response :=
  match st with
  | .present s =>
    if s.tasks = [] then .reportEmpty
    else
      let acc := s.tasks.foldl
        (fun (a : List (String × Nat) × List (String × Nat) × Nat) t =>
          (bump a.1 t.status, bump a.2.1 t.priority,
           a.2.2 + overdueStep parse now t))
        ([], [], 0)
      let total := s.tasks.length
      .reportOk total acc.1 acc.2.1 acc.2.2
        (if 0 < total then
          roundTo 1 ((lookupD acc.1 "completed" : ℚ) / (total : ℚ) * 100)
         else 0)
  | _ => .error "No tasks file found"

/-- One CSV row: comma-join of id, title, priority, status and deadline
with no quoting or escaping. -/
def csvRow (t : Task) : String :=
  t.id ++ "," ++ t.title ++ "," ++ t.priority ++ "," ++ t.status ++ ","
    ++ t.deadline

/-- FileProcessorTool._export_tasks: CSV when format is exactly csv,
else the JSON record list. -/
def exportTasks (st : FileState) (p : Params) : Response :=
  let fmt := p.format.getD "json"
  match st with
  | .present s =>
    if fmt = "csv" then
      let lines := s.tasks.foldl (fun acc t => acc ++ [csvRow t])
        ["ID,Title,Priority,Status,Deadline"]
      .exportCsv (String.intercalate "\n" lines) s.tasks.length
    else
      .exportJson s.tasks s.tasks.length
  | _ => .error "No tasks file found"

/-- A tool invocation: the input string fails to parse as JSON, parses
to a non-object, or parses to an object read as Params. -/
inductive ToolInput where
  | malformed
  | nonObject
  | request (p : Params)
deriving DecidableEq

/-- FileProcessorTool._run: JSON decode, dispatch on the action string,
and the catch-all except clauses turning any fault into a structured
error response. -/
def runTool (parse : String → Option Int) (st : FileState) (now : Int)
    (ts : String) : ToolInput → Response × FileState
  | .malformed => (.error "Invalid JSON input", st)
  | .nonObject => (.error "input is not a JSON object", st)
  | .request p =>
    let action := p.action.getD ""
    if action = "load" then (loadTasks st p, st)
    else if action = "save" then saveTask st p ts now
    else if action = "update" then updateTask st p now
    else if action = "delete" then deleteTask st p now
    else if action = "report" then (generateReport parse st now, st)
    else if action = "export" then (exportTasks st p, st)
    else (.error "Invalid action", st)

/-- Input task for prioritize_tasks_tool, with its urgency and
importance keys (absent keys default to 5 in the tool). -/
structure RawTask where
  urgency : Option ℚ
  importance : Option ℚ
deriving DecidableEq

/-- A task after the tool adds priority_score, quadrant and
priority_level. -/
structure ScoredTask where
  urgency : Option ℚ
  importance : Option ℚ
  priority_score : ℚ
  quadrant : String
  priority_level : String
deriving DecidableEq

/-- The Eisenhower quadrant table of prioritize_tasks_tool, thresholding
urgency and importance each strictly against 6. -/
def quadrantOf (u i : ℚ) : String × String :=
  if 6 < u ∧ 6 < i then ("DO FIRST - Urgent & Important", "critical")
  else if u ≤ 6 ∧ 6 < i then ("SCHEDULE - Not Urgent but Important", "high")
  else if 6 < u ∧ i ≤ 6 then ("DELEGATE - Urgent but Not Important", "medium")
  else ("ELIMINATE - Neither Urgent nor Important", "low")

/-- The loop body of prioritize_tasks_tool: weighted score, rounded to
two decimals, and quadrant labels. -/
def labelTask (t : RawTask) : ScoredTask :=
  let u := t.urgency.getD 5
  let i := t.importance.getD 5
  let ql := quadrantOf u i
  { urgency := t.urgency, importance := t.importance,
    priority_score := roundTo 2 (u * (2 / 5) + i * (3 / 5)),
    quadrant := ql.1, priority_level := ql.2 }

/-- Stable descending insertion: the inserted element came earlier in
the input, so it moves past strictly greater scores only. -/
def insertDesc (t : ScoredTask) : List ScoredTask → List ScoredTask
  | [] => [t]
  | x :: xs =>
    if t.priority_score < x.priority_score then x :: insertDesc t xs
    else t :: x :: xs

/-- Stable sort by descending priority_score: the semantics of Python's
list.sort(key=priority_score, reverse=True). -/
def sortDesc : List ScoredTask → List ScoredTask
  | [] => []
  | x :: xs => insertDesc x (sortDesc xs)

/-- prioritize_tasks_tool: label every task, then stable-sort by
descending score. -/
def prioritizeTasks (l : List RawTask) : List ScoredTask :=
  sortDesc (l.map labelTask)

/-- Modelled from the spec: tools/date_calculator.py is absent from the
sources (only its callers and tests are present), so the check_conflict
action follows the spec's words: two intervals conflict iff they share
any open overlap, and overlap_minutes is the size of the intersection,
zero when disjoint or merely touching.  Event times are rational
minutes. -/
def check_conflict (e1s e1e e2s e2e : ℚ) : Bool × ℚ :=
  let ov := min e1e e2e - max e1s e2s
  if 0 < ov then (true, ov) else (false, 0)

/-- The task carried by a save or update response, when any. -/
def Response.taskOf : Response → Option Task
  | .saveOk t => some t
  | .updateOk t => some t
  | _ => none

/-- The completion rate carried by a report response, when any. -/
def Response.rateOf : Response → Option ℚ
  | .reportOk _ _ _ _ r => some r
  | _ => none

/-- Tasks currently persisted in the backing file. -/
def FileState.tasksOf : FileState → List Task
  | .present s => s.tasks
  | _ => []

/-- Claim-side status histogram, as a separate fold. -/
def statusCounts (l : List Task) : List (String × Nat) :=
  l.foldl (fun m t => bump m t.status) []

/-- Claim-side priority histogram, as a separate fold. -/
def priorityCounts (l : List Task) : List (String × Nat) :=
  l.foldl (fun m t => bump m t.priority) []

/-- Claim-side overdue predicate: the deadline parses to a time in the
past and the status is not completed. -/
def isOverdue (parse : String → Option Int) (now : Int) (t : Task) : Bool :=
  match parse t.deadline with
  | some d => decide (d < now) && (t.status != "completed")
  | none => false

/-- Claim-side conjunctive filter for the load action: both supplied
truthy filter values must match exactly. -/
def matchesFilters (p : Params) (t : Task) : Bool :=
  (match truthy p.status with
   | some sf => t.status == sf
   | none => true)
  && (match truthy p.priority with
      | some pf => t.priority == pf
      | none => true)

/-- A sample pending task used in concrete instantiations. -/
def sampleTask : Task :=
  ⟨"t1", "Write report", "", "high", "pending", "", 60, ["work"], 0, 0⟩

/-- A sample completed task used in concrete instantiations. -/
def completedTask : Task :=
  ⟨"t2", "Done thing", "", "medium", "completed", "", 45, [], 0, 0⟩

/-- A sample pending task whose deadline string parses to a past time
under wParse. -/
def overdueTask : Task :=
  ⟨"t3", "Late thing", "", "high", "pending", "past", 60, [], 0, 0⟩

/-- A task whose identifier is the empty string. -/
def emptyIdTask : Task :=
  ⟨"", "Ghost", "", "low", "pending", "", 30, [], 0, 0⟩

/-- A concrete deadline parser: only the string past parses, to a time
before the clock value 0. -/
def wParse : String → Option Int :=
  fun s => if s = "past" then some (-10) else none

/-- Concrete update request: sets the title and also supplies tags. -/
def cw1Params : Params :=
  { noParams with task_id := some "t1", title := some "New title" }

/-- File state after saving one task into an empty store at clock 0. -/
def chainSt1 : FileState := (saveTask (.present ⟨[], 0⟩) noParams "0" 0).2

/-- File state after a second save within the same clock second. -/
def chainSt2 : FileState := (saveTask chainSt1 noParams "0" 0).2

/-- File state after deleting the first task again. -/
def chainSt3 : FileState :=
  (deleteTask chainSt2 { noParams with task_id := some "task_1_0" } 0).2

end ProdAgent

namespace ProdAgent

/-- Inserting then reading back is a permutation: insertDesc only
relocates the inserted element. -/
theorem insertDesc_perm (t : ScoredTask) (l : List ScoredTask) :
    List.Perm (insertDesc t l) (t :: l) := by
  induction l with
  | nil => simp [insertDesc]
  | cons x xs ih =>
    by_cases hlt : t.priority_score < x.priority_score
    · rw [insertDesc, if_pos hlt]
      exact (ih.cons x).trans (List.Perm.swap t x xs)
    · rw [insertDesc, if_neg hlt]

/-- sortDesc permutes its input. -/
theorem sortDesc_perm (l : List ScoredTask) : List.Perm (sortDesc l) l := by
  induction l with
  | nil => simp [sortDesc]
  | cons x xs ih => exact (insertDesc_perm x (sortDesc xs)).trans (ih.cons x)

/-- Membership in an insertion. -/
theorem mem_insertDesc {y t : ScoredTask} {l : List ScoredTask} :
    y ∈ insertDesc t l ↔ y = t ∨ y ∈ l := by
  rw [(insertDesc_perm t l).mem_iff]
  simp

/-- insertDesc keeps the list sorted by non-increasing score. -/
theorem insertDesc_pairwise {t : ScoredTask} {l : List ScoredTask}
    (h : l.Pairwise (fun a b => b.priority_score ≤ a.priority_score)) :
    (insertDesc t l).Pairwise
      (fun a b => b.priority_score ≤ a.priority_score) := by
  induction l with
  | nil => simp [insertDesc]
  | cons x xs ih =>
    have h1 := (List.pairwise_cons.mp h).1
    have h2 := (List.pairwise_cons.mp h).2
    by_cases hlt : t.priority_score < x.priority_score
    · rw [insertDesc, if_pos hlt]
      refine List.pairwise_cons.mpr ⟨?_, ih h2⟩
      intro y hy
      rcases mem_insertDesc.mp hy with rfl | hy2
      · exact le_of_lt hlt
      · exact h1 y hy2
    · rw [insertDesc, if_neg hlt]
      refine List.pairwise_cons.mpr ⟨?_, h⟩
      intro y hy
      rcases List.mem_cons.mp hy with rfl | hy2
      · exact not_lt.mp hlt
      · exact le_trans (h1 y hy2) (not_lt.mp hlt)

/-- sortDesc sorts by non-increasing score. -/
theorem sortDesc_pairwise (l : List ScoredTask) :
    (sortDesc l).Pairwise (fun a b => b.priority_score ≤ a.priority_score) := by
  induction l with
  | nil => simp [sortDesc]
  | cons x xs ih => exact insertDesc_pairwise ih

/-- Filtering one score class through an insertion: the inserted element
passes only strictly greater scores, so its class gains it in front. -/
theorem filter_insertDesc (q : ℚ) (t : ScoredTask) (l : List ScoredTask) :
    (insertDesc t l).filter (fun x => decide (x.priority_score = q))
      = if t.priority_score = q
        then t :: l.filter (fun x => decide (x.priority_score = q))
        else l.filter (fun x => decide (x.priority_score = q)) := by
  induction l with
  | nil => by_cases htq : t.priority_score = q <;> simp [insertDesc, htq]
  | cons x xs ih =>
    by_cases hlt : t.priority_score < x.priority_score
    · rw [insertDesc, if_pos hlt]
      by_cases htq : t.priority_score = q
      · have hxq : x.priority_score ≠ q := by
          intro hx
          exact absurd hlt (by rw [htq, hx]; exact lt_irrefl q)
        simp [List.filter_cons, hxq, ih, htq]
      · by_cases hxq : x.priority_score = q <;>
          simp [List.filter_cons, hxq, ih, htq]
    · rw [insertDesc, if_neg hlt]
      by_cases htq : t.priority_score = q <;>
        simp [List.filter_cons, htq]

/-- Stability of sortDesc: each score class keeps its input order. -/
theorem sortDesc_filter (q : ℚ) (l : List ScoredTask) :
    (sortDesc l).filter (fun x => decide (x.priority_score = q))
      = l.filter (fun x => decide (x.priority_score = q)) := by
  induction l with
  | nil => simp [sortDesc]
  | cons x xs ih =>
    rw [sortDesc, filter_insertDesc]
    by_cases hxq : x.priority_score = q <;> simp [List.filter_cons, hxq, ih]

end ProdAgent

namespace ProdAgent

/-- When no record matches, the update loop finds nothing. -/
theorem updateFirst_none (p : Params) (now : Int) (tid : String)
    (l : List Task) (h : ∀ t ∈ l, t.id ≠ tid) :
    updateFirst p now tid l = none := by
  induction l with
  | nil => rfl
  | cons t rest ih =>
    rw [updateFirst, if_neg (h t (List.mem_cons_self t rest))]
    rw [ih (fun u hu => h u (List.mem_cons_of_mem t hu))]

/-- The update loop rewrites exactly the first matching record. -/
theorem updateFirst_split (p : Params) (now : Int) (tid : String)
    (pre post : List Task) (t : Task)
    (hpre : ∀ u ∈ pre, u.id ≠ tid) (ht : t.id = tid) :
    updateFirst p now tid (pre ++ t :: post)
      = some (applyUpdate p now t, pre ++ applyUpdate p now t :: post) := by
  induction pre with
  | nil => simp [updateFirst, ht]
  | cons u rest ih =>
    have hu : u.id ≠ tid := hpre u (List.mem_cons_self u rest)
    rw [List.cons_append, updateFirst, if_neg hu,
      ih (fun v hv => hpre v (List.mem_cons_of_mem u hv))]
    rfl

/-- Counting-dict increment only touches the bumped key. -/
theorem lookupD_bump (m : List (String × Nat)) (k j : String) :
    lookupD (bump m k) j = lookupD m j + if k = j then 1 else 0 := by
  induction m with
  | nil =>
    by_cases hkj : k = j
    · subst hkj
      simp [bump, lookupD, List.lookup]
    · have hjk : (j == k) = false := beq_eq_false_iff_ne.mpr (Ne.symm hkj)
      simp [bump, lookupD, List.lookup, hjk, hkj]
  | cons e rest ih =>
    obtain ⟨k2, v⟩ := e
    by_cases hk2 : k2 = k
    · subst hk2
      by_cases hkj : k2 = j
      · subst hkj
        simp [bump, lookupD, List.lookup]
      · have hjk : (j == k2) = false := beq_eq_false_iff_ne.mpr (Ne.symm hkj)
        simp [bump, lookupD, List.lookup, hjk, hkj]
    · by_cases h2j : k2 = j
      · subst h2j
        have hkj : k ≠ k2 := fun h => hk2 h.symm
        simp [bump, hk2, lookupD, List.lookup, hkj]
      · have hjk2 : (j == k2) = false := beq_eq_false_iff_ne.mpr (Ne.symm h2j)
        simpa [bump, hk2, lookupD, List.lookup, hjk2] using ih

/-- Folding bumps over a list counts exactly the matching keys. -/
theorem lookupD_foldl_bump (f : Task → String) (l : List Task)
    (m : List (String × Nat)) (j : String) :
    lookupD (l.foldl (fun m t => bump m (f t)) m) j
      = lookupD m j + (l.filter (fun t => f t == j)).length := by
  induction l generalizing m with
  | nil => simp
  | cons t rest ih =>
    rw [List.foldl_cons, ih, lookupD_bump, List.filter_cons]
    by_cases hj : f t = j
    · simp only [hj, if_pos rfl, beq_self_eq_true, if_true, List.length_cons]
      omega
    · have hne : (f t == j) = false := beq_eq_false_iff_ne.mpr hj
      simp [hj, hne]

/-- The single report pass splits into the three independent folds. -/
theorem reportFold_split (parse : String → Option Int) (now : Int)
    (l : List Task) (a b : List (String × Nat)) (c : Nat) :
    l.foldl
      (fun (x : List (String × Nat) × List (String × Nat) × Nat) t =>
        (bump x.1 t.status, bump x.2.1 t.priority,
         x.2.2 + overdueStep parse now t))
      (a, b, c)
      = (l.foldl (fun m t => bump m t.status) a,
         l.foldl (fun m t => bump m t.priority) b,
         c + (l.map (overdueStep parse now)).sum) := by
  induction l generalizing a b c with
  | nil => simp
  | cons t rest ih => simp [ih, Nat.add_assoc]

/-- Under a parser that rejects the empty string, one loop step of the
overdue counter agrees with the claim-side overdue predicate. -/
theorem overdueStep_eq (parse : String → Option Int) (now : Int)
    (t : Task) (hp : parse "" = none) :
    overdueStep parse now t = if isOverdue parse now t then 1 else 0 := by
  unfold overdueStep isOverdue
  by_cases hd : t.deadline = ""
  · simp [hd, hp]
  · rw [if_neg hd]
    split
    · rename_i d hpt
      by_cases h1 : d < now <;> by_cases h2 : t.status = "completed" <;>
        simp [h1, h2]
    · simp

/-- Summed over the collection, the loop's overdue counter counts the
claim-side overdue records. -/
theorem sum_overdueStep (parse : String → Option Int) (now : Int)
    (l : List Task) (hp : parse "" = none) :
    (l.map (overdueStep parse now)).sum
      = (l.filter (isOverdue parse now)).length := by
  induction l with
  | nil => rfl
  | cons t rest ih =>
    rw [List.map_cons, List.sum_cons, List.filter_cons, ih,
      overdueStep_eq parse now t hp]
    by_cases ho : isOverdue parse now t <;> simp [ho, Nat.add_comm]

/-- The CSV accumulation loop is a map. -/
theorem foldl_csvRow (l : List Task) (init : List String) :
    l.foldl (fun acc t => acc ++ [csvRow t]) init = init ++ l.map csvRow := by
  induction l generalizing init with
  | nil => simp
  | cons t rest ih => simp [ih]

/-- Filtering out an id that occurs in the list strictly shrinks it. -/
theorem length_filter_ne_of_any (l : List Task) (tid : String)
    (h : l.any (fun u => u.id == tid) = true) :
    (l.filter (fun u => u.id != tid)).length ≠ l.length := by
  induction l with
  | nil => simp at h
  | cons t rest ih =>
    by_cases ht : t.id = tid
    · rw [List.filter_cons, if_neg (by simp [ht])]
      have hle := List.length_filter_le (fun u => u.id != tid) rest
      simp only [List.length_cons]
      omega
    · rw [List.filter_cons, if_pos (by simp [ht])]
      have hrest : rest.any (fun u => u.id == tid) = true := by
        rcases List.any_eq_true.mp h with ⟨x, hx, hxid⟩
        rcases List.mem_cons.mp hx with rfl | hx2
        · exact absurd (beq_iff_eq.mp hxid) ht
        · exact List.any_eq_true.mpr ⟨x, hx2, hxid⟩
      simp only [List.length_cons]
      exact fun hc => ih hrest (by omega)

end ProdAgent

namespace ProdAgent

/-- C5 (amended): the load action returns exactly the stored records
matching every supplied truthy filter value by exact string equality,
with the two filters ANDed; an absent filter key, and likewise a
supplied empty-string value (Python falsiness), imposes no constraint;
a missing storage file yields an empty sequence rather than an error. -/
theorem c5_load_filter_spec (s : Store) (p : Params) :
    loadTasks (.present s) p
      = .loadOk (s.tasks.filter (matchesFilters p))
          (s.tasks.filter (matchesFilters p)).length (some s.last_updated)
  ∧ loadTasks .missing p = .loadOk [] 0 none := by
  constructor
  · cases hs : truthy p.status with
    | none =>
      cases hp2 : truthy p.priority with
      | none =>
        have hmf : matchesFilters p = fun _ => true := by
          funext t
          simp [matchesFilters, hs, hp2]
        simp [loadTasks, hs, hp2, hmf]
      | some pf =>
        have hmf : matchesFilters p = fun t => t.priority == pf := by
          funext t
          simp [matchesFilters, hs, hp2]
        simp [loadTasks, hs, hp2, hmf]
    | some sf =>
      cases hp2 : truthy p.priority with
      | none =>
        have hmf : matchesFilters p = fun t => t.status == sf := by
          funext t
          simp [matchesFilters, hs, hp2]
        simp [loadTasks, hs, hp2, hmf]
      | some pf =>
        have hmf : matchesFilters p
            = fun t => (t.status == sf) && (t.priority == pf) := by
          funext t
          simp [matchesFilters, hs, hp2]
        simp only [loadTasks, hs, hp2, hmf]
        rw [List.filter_filter]
        have hcomm : s.tasks.filter (fun a => (a.priority == pf) && (a.status == sf))
            = s.tasks.filter (fun a => (a.status == sf) && (a.priority == pf)) :=
          List.filter_congr (fun a _ => by rw [Bool.and_comm])
        rw [hcomm]
  · rfl

/-- C5 counterexample: a supplied empty-string status filter is falsy in
Python, so the code applies no constraint and returns a record whose
status is not the empty string, contradicting exact-equality filtering
of every supplied filter value. -/
theorem c5_empty_filter_cex :
    loadTasks (.present ⟨[sampleTask], 0⟩) { noParams with status := some "" }
      = .loadOk [sampleTask] 1 (some 0)
  ∧ sampleTask.status ≠ "" := by
  decide

/-- C9 (spec-modelled): check_conflict is symmetric in its two events,
reports a conflict exactly when the two open intervals intersect,
reports overlap_minutes as the size of the intersection, and reports
zero overlap whenever there is no conflict. -/
theorem c9_conflict_spec (a b c d : ℚ) :
    check_conflict a b c d = check_conflict c d a b
  ∧ ((check_conflict a b c d).1 = true ↔ (Set.Ioo a b ∩ Set.Ioo c d).Nonempty)
  ∧ (check_conflict a b c d).2 = max 0 (min b d - max a c)
  ∧ ((check_conflict a b c d).1 = false → (check_conflict a b c d).2 = 0) := by
  refine ⟨?_, ?_, ?_, ?_⟩
  · unfold check_conflict
    rw [min_comm, max_comm]
  · unfold check_conflict
    rw [Set.Ioo_inter_Ioo, Set.nonempty_Ioo]
    dsimp only
    split_ifs with h
    · simp [sub_pos.mp h]
    · simp only [Bool.false_eq_true, false_iff, not_lt]
      exact sub_nonpos.mp (not_lt.mp h)
  · unfold check_conflict
    dsimp only
    split_ifs with h
    · exact (max_eq_right (le_of_lt h)).symm
    · exact (max_eq_left (not_lt.mp h)).symm
  · unfold check_conflict
    dsimp only
    split_ifs with h
    · simp
    · simp

/-- C9 witness: the conflict specification instantiated at the concrete
intervals (0, 10) and (5, 15). -/
theorem c9_conflict_witness :
    check_conflict (0 : ℚ) 10 5 15 = check_conflict 5 15 0 10
  ∧ ((check_conflict (0 : ℚ) 10 5 15).1 = true
      ↔ (Set.Ioo (0 : ℚ) 10 ∩ Set.Ioo 5 15).Nonempty)
  ∧ (check_conflict (0 : ℚ) 10 5 15).2 = max 0 (min 10 15 - max 0 5)
  ∧ ((check_conflict (0 : ℚ) 10 5 15).1 = false
      → (check_conflict (0 : ℚ) 10 5 15).2 = 0) :=
  c9_conflict_spec 0 10 5 15

/-- C10: a save issued while the backing file is missing or holds
corrupt JSON does not fail: the bare except resets the document, so the
operation succeeds and persists a collection holding only the newly
created task, discarding previous contents. -/
theorem c10_save_discards_spec (p : Params) (ts : String) (now : Int) :
    saveTask .missing p ts now
      = (.saveOk (freshTask p 1 ts now),
         .present { tasks := [freshTask p 1 ts now], last_updated := now })
  ∧ saveTask .corrupt p ts now
      = (.saveOk (freshTask p 1 ts now),
         .present { tasks := [freshTask p 1 ts now], last_updated := now }) :=
  ⟨rfl, rfl⟩

end ProdAgent

namespace ProdAgent

/-- C7: the tool entry point returns one structured response for every
input: non-JSON input yields the Invalid JSON input error, a JSON object
whose action is not among the six recognized actions yields the Invalid
action error, and the embedding is a total function, so no input
produces an uncaught fault. -/
theorem c7_dispatch_spec (parse : String → Option Int) (st : FileState)
    (now : Int) (ts : String) (p : Params)
    (h : p.action.getD ""
      ∉ (["load", "save", "update", "delete", "report", "export"] : List String)) :
    runTool parse st now ts .malformed = (.error "Invalid JSON input", st)
  ∧ runTool parse st now ts .nonObject
      = (.error "input is not a JSON object", st)
  ∧ runTool parse st now ts (.request p) = (.error "Invalid action", st) := by
  refine ⟨rfl, rfl, ?_⟩
  simp only [List.mem_cons, List.not_mem_nil, or_false, not_or] at h
  obtain ⟨h1, h2, h3, h4, h5, h6⟩ := h
  simp [runTool, h1, h2, h3, h4, h5, h6]

/-- C7 witness: the dispatch specification instantiated at a concrete
unrecognized action. -/
theorem c7_dispatch_witness :
    runTool (fun _ => none) .missing 0 "" .malformed
      = (.error "Invalid JSON input", .missing)
  ∧ runTool (fun _ => none) .missing 0 "" .nonObject
      = (.error "input is not a JSON object", .missing)
  ∧ runTool (fun _ => none) .missing 0 ""
        (.request { noParams with action := some "frobnicate" })
      = (.error "Invalid action", .missing) :=
  c7_dispatch_spec (fun _ => none) .missing 0 ""
    { noParams with action := some "frobnicate" } (by decide)

/-- C8: exporting as csv renders exactly one header row followed by one
comma-joined row per record in stored order, with no escaping or
quoting of embedded commas; any other format value, including the
default json, returns the full record list in stored order. -/
theorem c8_export_spec (s : Store) (fmt : Option String)
    (h : fmt ≠ some "csv") :
    exportTasks (.present s) { noParams with format := some "csv" }
      = .exportCsv
          (String.intercalate "\n"
            ("ID,Title,Priority,Status,Deadline"
              :: s.tasks.map (fun t =>
                t.id ++ "," ++ t.title ++ "," ++ t.priority ++ ","
                  ++ t.status ++ "," ++ t.deadline)))
          s.tasks.length
  ∧ exportTasks (.present s) { noParams with format := fmt }
      = .exportJson s.tasks s.tasks.length := by
  constructor
  · simp only [exportTasks]
    rw [foldl_csvRow]
    rfl
  · have hne : fmt.getD "json" ≠ "csv" := by
      cases fmt with
      | none => simp
      | some f =>
        simp only [Option.getD_some]
        intro hf
        exact h (by rw [hf])
    simp [exportTasks, hne]

/-- C8 witness: the export specification instantiated at a one-record
store and an absent format key. -/
theorem c8_export_witness :
    exportTasks (.present ⟨[sampleTask], 0⟩) { noParams with format := some "csv" }
      = .exportCsv
          (String.intercalate "\n"
            ("ID,Title,Priority,Status,Deadline"
              :: [sampleTask].map (fun t =>
                t.id ++ "," ++ t.title ++ "," ++ t.priority ++ ","
                  ++ t.status ++ "," ++ t.deadline)))
          1
  ∧ exportTasks (.present ⟨[sampleTask], 0⟩) { noParams with format := none }
      = .exportJson [sampleTask] 1 :=
  c8_export_spec ⟨[sampleTask], 0⟩ none (by decide)

end ProdAgent

namespace ProdAgent

/-- C1 (amended): for a non-empty requested id, update of an absent id
returns a not-found error and leaves the collection unchanged; update of
a present id rewrites the first matching record, overwriting exactly the
supplied fields among title, description, priority, status, deadline and
estimated_duration (a supplied tags value is ignored), stamps updated_at
with the clock (strictly later whenever the clock has advanced past the
record's previous update), persists, and returns the updated record. -/
theorem c1_update_spec (s : Store) (p : Params) (now : Int) (tid : String)
    (pre post : List Task) (t : Task)
    (vt vdesc vpr vst vdl : String) (vdur : Int)
    (hid : p.task_id = some tid) (hne : tid ≠ "") :
    (s.tasks.all (fun u => u.id != tid) = true →
      updateTask (.present s) p now
        = (.error ("Task with id " ++ tid ++ " not found"), .present s))
  ∧ (s.tasks = pre ++ t :: post →
     pre.all (fun u => u.id != tid) = true →
     t.id = tid →
       updateTask (.present s) p now
         = (.updateOk (applyUpdate p now t),
            .present { tasks := pre ++ applyUpdate p now t :: post,
                       last_updated := now })
     ∧ (applyUpdate p now t).id = t.id
     ∧ (applyUpdate p now t).tags = t.tags
     ∧ (applyUpdate p now t).created_at = t.created_at
     ∧ (applyUpdate p now t).updated_at = now
     ∧ (t.updated_at < now → t.updated_at < (applyUpdate p now t).updated_at)
     ∧ (p.title = none → (applyUpdate p now t).title = t.title)
     ∧ (p.title = some vt → (applyUpdate p now t).title = vt)
     ∧ (p.description = none
          → (applyUpdate p now t).description = t.description)
     ∧ (p.description = some vdesc
          → (applyUpdate p now t).description = vdesc)
     ∧ (p.priority = none → (applyUpdate p now t).priority = t.priority)
     ∧ (p.priority = some vpr → (applyUpdate p now t).priority = vpr)
     ∧ (p.status = none → (applyUpdate p now t).status = t.status)
     ∧ (p.status = some vst → (applyUpdate p now t).status = vst)
     ∧ (p.deadline = none → (applyUpdate p now t).deadline = t.deadline)
     ∧ (p.deadline = some vdl → (applyUpdate p now t).deadline = vdl)
     ∧ (p.estimated_duration = none
          → (applyUpdate p now t).estimated_duration = t.estimated_duration)
     ∧ (p.estimated_duration = some vdur
          → (applyUpdate p now t).estimated_duration = vdur)) := by
  have htr : truthy p.task_id = some tid := by
    rw [hid]
    simp [truthy, hne]
  constructor
  · intro hall
    have hnone : updateFirst p now tid s.tasks = none := by
      apply updateFirst_none
      intro u hu
      simpa using List.all_eq_true.mp hall u hu
    simp [updateTask, htr, hnone]
  · intro hsplit hpre hti
    have hfound : updateFirst p now tid s.tasks
        = some (applyUpdate p now t, pre ++ applyUpdate p now t :: post) := by
      rw [hsplit]
      exact updateFirst_split p now tid pre post t
        (fun u hu => by simpa using List.all_eq_true.mp hpre u hu) hti
    refine ⟨by simp [updateTask, htr, hfound], by simp [applyUpdate],
      by simp [applyUpdate], by simp [applyUpdate], by simp [applyUpdate],
      ?_, ?_, ?_, ?_, ?_, ?_, ?_, ?_, ?_, ?_, ?_, ?_, ?_⟩
    · intro hlt
      simpa [applyUpdate] using hlt
    · intro hx
      simp [applyUpdate, hx]
    · intro hx
      simp [applyUpdate, hx]
    · intro hx
      simp [applyUpdate, hx]
    · intro hx
      simp [applyUpdate, hx]
    · intro hx
      simp [applyUpdate, hx]
    · intro hx
      simp [applyUpdate, hx]
    · intro hx
      simp [applyUpdate, hx]
    · intro hx
      simp [applyUpdate, hx]
    · intro hx
      simp [applyUpdate, hx]
    · intro hx
      simp [applyUpdate, hx]
    · intro hx
      simp [applyUpdate, hx]
    · intro hx
      simp [applyUpdate, hx]

/-- C1 witness: the update specification instantiated at a one-record
store, updating the title of the present record at a later clock. -/
theorem c1_update_witness :
    updateTask (.present ⟨[sampleTask], 0⟩) cw1Params 5
      = (.updateOk (applyUpdate cw1Params 5 sampleTask),
         .present { tasks := [applyUpdate cw1Params 5 sampleTask],
                    last_updated := 5 })
  ∧ (applyUpdate cw1Params 5 sampleTask).tags = sampleTask.tags
  ∧ (applyUpdate cw1Params 5 sampleTask).title = "New title"
  ∧ sampleTask.updated_at < (applyUpdate cw1Params 5 sampleTask).updated_at := by
  have H := (c1_update_spec ⟨[sampleTask], 0⟩ cw1Params 5 "t1" [] [] sampleTask
    "New title" "" "" "" "" 0 rfl (by decide)).2 rfl (by decide) rfl
  exact ⟨H.1, H.2.2.1, H.2.2.2.2.2.2.2.1 rfl,
    H.2.2.2.2.2.1 (by decide)⟩

/-- C1 counterexample: the claim lists tags among the updatable fields,
but the code never copies a supplied tags value into the record: at a
concrete store, an update supplying tags returns and persists the record
with its old tags. -/
theorem c1_tags_ignored_cex :
    updateTask (.present ⟨[sampleTask], 0⟩)
        { noParams with task_id := some "t1", tags := some ["urgent"] } 5
      = (.updateOk { sampleTask with updated_at := 5 },
         .present { tasks := [{ sampleTask with updated_at := 5 }],
                    last_updated := 5 })
  ∧ ({ sampleTask with updated_at := 5 } : Task).tags = ["work"]
  ∧ (["work"] : List String) ≠ ["urgent"] := by
  decide

/-- C4 (amended): for a non-empty requested id, deleting an absent id
yields a not-found error with the collection unchanged; deleting a
present id removes every record with that id, persists, and returns the
count of remaining records, after which a list never contains the id.  A
falsy (empty) task_id is rejected with a required-parameter error even
when a record with the empty id is present. -/
theorem c4_delete_spec (s : Store) (p : Params) (now : Int) (tid : String)
    (hid : p.task_id = some tid) (hne : tid ≠ "") :
    (s.tasks.all (fun u => u.id != tid) = true →
      deleteTask (.present s) p now
        = (.error ("Task with id " ++ tid ++ " not found"), .present s))
  ∧ (s.tasks.any (fun u => u.id == tid) = true →
      deleteTask (.present s) p now
        = (.deleteOk (s.tasks.filter (fun u => u.id != tid)).length,
           .present { tasks := s.tasks.filter (fun u => u.id != tid),
                      last_updated := now })
    ∧ (s.tasks.filter (fun u => u.id != tid)).all (fun u => u.id != tid)
        = true
    ∧ loadTasks (deleteTask (.present s) p now).2 noParams
        = .loadOk (s.tasks.filter (fun u => u.id != tid))
            (s.tasks.filter (fun u => u.id != tid)).length (some now)) := by
  have htr : truthy p.task_id = some tid := by
    rw [hid]
    simp [truthy, hne]
  constructor
  · intro hall
    have hfe : s.tasks.filter (fun u => u.id != tid) = s.tasks :=
      List.filter_eq_self.mpr (fun a ha => List.all_eq_true.mp hall a ha)
    simp [deleteTask, htr, hfe]
  · intro hany
    have hlen := length_filter_ne_of_any s.tasks tid hany
    have hdel : deleteTask (.present s) p now
        = (.deleteOk (s.tasks.filter (fun u => u.id != tid)).length,
           .present { tasks := s.tasks.filter (fun u => u.id != tid),
                      last_updated := now }) := by
      simp [deleteTask, htr, hlen]
    refine ⟨hdel, ?_, ?_⟩
    · exact List.all_eq_true.mpr (fun x hx => (List.mem_filter.mp hx).2)
    · rw [hdel]
      rfl

/-- C4 witness: the delete specification instantiated at a two-record
store, deleting a present id. -/
theorem c4_delete_witness :
    deleteTask (.present ⟨[sampleTask, completedTask], 0⟩)
        { noParams with task_id := some "t1" } 7
      = (.deleteOk 1, .present { tasks := [completedTask], last_updated := 7 })
  ∧ loadTasks
        (deleteTask (.present ⟨[sampleTask, completedTask], 0⟩)
          { noParams with task_id := some "t1" } 7).2 noParams
      = .loadOk [completedTask] 1 (some 7) := by
  have H := (c4_delete_spec ⟨[sampleTask, completedTask], 0⟩
    { noParams with task_id := some "t1" } 7 "t1" rfl (by decide)).2 (by decide)
  exact ⟨H.1, H.2.2⟩

/-- C4 counterexample: a record whose id is the empty string is present,
yet deleting that id is rejected by the falsy-parameter check with a
required-parameter error and removes nothing, contradicting the claim
that deleting any present id removes every record with that id. -/
theorem c4_empty_id_cex :
    deleteTask (.present ⟨[emptyIdTask], 0⟩)
        { noParams with task_id := some "" } 5
      = (.error "task_id is required", .present ⟨[emptyIdTask], 0⟩)
  ∧ emptyIdTask.id = "" := by
  decide

end ProdAgent

namespace ProdAgent

/-- C6 (amended): save assigns the deterministic identifier
task_{count+1}_{timestamp}, which is not guaranteed distinct from ids
already in the store; it fills absent fields with the defaults (title
Untitled Task, priority medium, status pending, estimated_duration 60,
tags empty), stamps created_at and updated_at with the clock, appends
the record to the persisted collection, and returns the full record. -/
theorem c6_save_spec (s : Store) (p : Params) (ts : String) (now : Int) :
    saveTask (.present s) p ts now
      = (.saveOk (freshTask p (s.tasks.length + 1) ts now),
         .present { tasks := s.tasks ++ [freshTask p (s.tasks.length + 1) ts now],
                    last_updated := now })
  ∧ (freshTask p (s.tasks.length + 1) ts now).id
      = "task_" ++ toString (s.tasks.length + 1) ++ "_" ++ ts
  ∧ (p.title = none
      → (freshTask p (s.tasks.length + 1) ts now).title = "Untitled Task")
  ∧ (p.priority = none
      → (freshTask p (s.tasks.length + 1) ts now).priority = "medium")
  ∧ (p.status = none
      → (freshTask p (s.tasks.length + 1) ts now).status = "pending")
  ∧ (p.estimated_duration = none
      → (freshTask p (s.tasks.length + 1) ts now).estimated_duration = 60)
  ∧ (p.tags = none → (freshTask p (s.tasks.length + 1) ts now).tags = [])
  ∧ (freshTask p (s.tasks.length + 1) ts now).created_at = now
  ∧ (freshTask p (s.tasks.length + 1) ts now).updated_at = now := by
  refine ⟨rfl, rfl, ?_, ?_, ?_, ?_, ?_, rfl, rfl⟩ <;>
    exact fun hx => by simp [freshTask, hx]

/-- C6 witness: the save specification instantiated at an empty store
with an empty request. -/
theorem c6_save_witness :
    saveTask (.present ⟨[], 0⟩) noParams "20240101" 3
      = (.saveOk (freshTask noParams 1 "20240101" 3),
         .present { tasks := [freshTask noParams 1 "20240101" 3],
                    last_updated := 3 })
  ∧ (freshTask noParams 1 "20240101" 3).priority = "medium"
  ∧ (freshTask noParams 1 "20240101" 3).id = "task_1_20240101" := by
  have H := c6_save_spec ⟨[], 0⟩ noParams "20240101" 3
  exact ⟨H.1, H.2.2.2.1 rfl, by decide⟩

/-- C6 counterexample: the generated identifier is not fresh: after two
saves in the same clock second and a delete of the first record, the
next save generates task_2_0, which is already the id of a stored
record. -/
theorem c6_id_collision_cex :
    (FileState.tasksOf chainSt3).map Task.id = ["task_2_0"]
  ∧ Response.taskOf (saveTask chainSt3 noParams "0" 0).1
      = some (freshTask noParams 2 "0" 0)
  ∧ (freshTask noParams 2 "0" 0).id = "task_2_0" := by
  decide

/-- C3 (amended): for a non-empty collection, report returns the total
count, the counts grouped by status and by priority, the count of
records whose deadline parses to a past time with status not completed,
and the completion rate completed/total as a percentage rounded to one
decimal; an empty collection instead yields the degenerate No-tasks
report carrying only a zero total and no completion rate. -/
theorem c3_report_spec (parse : String → Option Int) (s : Store) (now : Int)
    (stKey prKey : String)
    (h : s.tasks ≠ []) (hp : parse "" = none) :
    generateReport parse (.present s) now
      = .reportOk s.tasks.length (statusCounts s.tasks)
          (priorityCounts s.tasks)
          ((s.tasks.filter (isOverdue parse now)).length)
          (roundTo 1
            (((s.tasks.filter (fun t => t.status == "completed")).length : ℚ)
              / (s.tasks.length : ℚ) * 100))
  ∧ lookupD (statusCounts s.tasks) stKey
      = (s.tasks.filter (fun t => t.status == stKey)).length
  ∧ lookupD (priorityCounts s.tasks) prKey
      = (s.tasks.filter (fun t => t.priority == prKey)).length := by
  have hsc : ∀ k, lookupD (statusCounts s.tasks) k
      = (s.tasks.filter (fun t => t.status == k)).length := by
    intro k
    unfold statusCounts
    rw [lookupD_foldl_bump]
    simp [lookupD, List.lookup]
  have hpc : ∀ k, lookupD (priorityCounts s.tasks) k
      = (s.tasks.filter (fun t => t.priority == k)).length := by
    intro k
    unfold priorityCounts
    rw [lookupD_foldl_bump (fun t => t.priority)]
    simp [lookupD, List.lookup]
  refine ⟨?_, hsc stKey, hpc prKey⟩
  unfold generateReport
  dsimp only
  rw [if_neg h, reportFold_split, sum_overdueStep parse now s.tasks hp]
  have hlen : 0 < s.tasks.length := List.length_pos.mpr h
  have hcompleted : lookupD (List.foldl (fun m t => bump m t.status) [] s.tasks)
      "completed" = (s.tasks.filter (fun t => t.status == "completed")).length :=
    hsc "completed"
  simp only [Nat.zero_add, if_pos hlen, hcompleted]
  rfl

/-- C3 witness: the report specification instantiated at a two-record
store with one completed record and one overdue pending record. -/
theorem c3_report_witness :
    generateReport wParse (.present ⟨[completedTask, overdueTask], 0⟩) 0
      = .reportOk 2 (statusCounts [completedTask, overdueTask])
          (priorityCounts [completedTask, overdueTask])
          (([completedTask, overdueTask].filter (isOverdue wParse 0)).length)
          (roundTo 1
            ((([completedTask, overdueTask].filter
                (fun t => t.status == "completed")).length : ℚ) / (2 : ℚ) * 100))
  ∧ lookupD (statusCounts [completedTask, overdueTask]) "completed"
      = ([completedTask, overdueTask].filter
          (fun t => t.status == "completed")).length
  ∧ lookupD (priorityCounts [completedTask, overdueTask]) "high"
      = ([completedTask, overdueTask].filter
          (fun t => t.priority == "high")).length :=
  c3_report_spec wParse ⟨[completedTask, overdueTask], 0⟩ 0 "completed" "high"
    (by decide) (by decide)

/-- C3 counterexample: on an empty stored collection the code
short-circuits to the degenerate No-tasks response, which carries no
completion rate at all, contradicting the claim that report returns a
completion rate of 0 when the total is zero. -/
theorem c3_empty_report_cex :
    generateReport (fun _ => none) (.present ⟨[], 0⟩) 0 = .reportEmpty
  ∧ Response.rateOf (generateReport (fun _ => none) (.present ⟨[], 0⟩) 0)
      = none :=
  ⟨rfl, rfl⟩

end ProdAgent

namespace ProdAgent

/-- C2 (amended): prioritize assigns each task the score
0.4*urgency + 0.6*importance rounded to two decimal places (invisible on
the integer 1..10 scale), labels it by thresholding urgency and
importance each strictly against 6, and returns the tasks in
non-increasing score order with ties preserving input relative order; on
the two-task fixture it yields DO FIRST then ELIMINATE with scores 8.0
and 3.0. -/
theorem c2_prioritize_spec (l : List RawTask) (q : ℚ) (t : ScoredTask) :
    List.Perm (prioritizeTasks l) (l.map labelTask)
  ∧ (prioritizeTasks l).Pairwise
      (fun a b => b.priority_score ≤ a.priority_score)
  ∧ (prioritizeTasks l).filter (fun x => decide (x.priority_score = q))
      = (l.map labelTask).filter (fun x => decide (x.priority_score = q))
  ∧ (t ∈ prioritizeTasks l →
       t.priority_score
         = roundTo 2 (t.urgency.getD 5 * (2 / 5) + t.importance.getD 5 * (3 / 5))
     ∧ t.quadrant = (quadrantOf (t.urgency.getD 5) (t.importance.getD 5)).1
     ∧ t.priority_level
         = (quadrantOf (t.urgency.getD 5) (t.importance.getD 5)).2)
  ∧ prioritizeTasks [⟨some 8, some 8⟩, ⟨some 3, some 3⟩]
      = [⟨some 8, some 8, 8, "DO FIRST - Urgent & Important", "critical"⟩,
         ⟨some 3, some 3, 3, "ELIMINATE - Neither Urgent nor Important",
           "low"⟩] := by
  refine ⟨sortDesc_perm _, sortDesc_pairwise _, sortDesc_filter q _, ?_, ?_⟩
  · intro ht
    have hmem : t ∈ l.map labelTask :=
      ((sortDesc_perm (l.map labelTask)).mem_iff).mp ht
    rcases List.mem_map.mp hmem with ⟨r, _, rfl⟩
    exact ⟨rfl, rfl, rfl⟩
  · norm_num [prioritizeTasks, labelTask, quadrantOf, sortDesc, insertDesc,
      roundTo, roundHalfEven, ratFloor, Int.fdiv]

/-- C2 witness: the prioritize specification instantiated at the spec's
two-task fixture, with the score formula read back from the first
returned record. -/
theorem c2_prioritize_witness :
    prioritizeTasks [⟨some 8, some 8⟩, ⟨some 3, some 3⟩]
      = [⟨some 8, some 8, 8, "DO FIRST - Urgent & Important", "critical"⟩,
         ⟨some 3, some 3, 3, "ELIMINATE - Neither Urgent nor Important",
           "low"⟩]
  ∧ (⟨some 8, some 8, 8, "DO FIRST - Urgent & Important", "critical"⟩
        : ScoredTask).priority_score
      = roundTo 2 ((8 : ℚ) * (2 / 5) + (8 : ℚ) * (3 / 5)) := by
  have H := c2_prioritize_spec [⟨some 8, some 8⟩, ⟨some 3, some 3⟩] 8
    ⟨some 8, some 8, 8, "DO FIRST - Urgent & Important", "critical"⟩
  have hm := H.2.2.2.1 (by
    rw [H.2.2.2.2]
    exact List.mem_cons_self _ _)
  exact ⟨H.2.2.2.2, hm.1⟩

/-- C2 counterexample: the claim says the assigned score equals
0.4*urgency + 0.6*importance for every numeric input, but the code
rounds to two decimals: at urgency = importance = 1/1000 the assigned
score is 0 while the claimed formula gives 1/1000, which is nonzero. -/
theorem c2_score_rounded_cex :
    (prioritizeTasks [⟨some (1 / 1000), some (1 / 1000)⟩]).map
        ScoredTask.priority_score = [0]
  ∧ ((1 / 1000 : ℚ) * (2 / 5) + (1 / 1000 : ℚ) * (3 / 5)) ≠ 0 := by
  constructor
  · norm_num [prioritizeTasks, labelTask, quadrantOf, sortDesc, insertDesc,
      roundTo, roundHalfEven, ratFloor, Int.fdiv]
  · norm_num

end ProdAgent
